import Mathlib

/-!
Shallow embedding of the flaskfeed-api backend (`src/backend/backend_app.py`),
a Flask service over a single in-memory list `POSTS` of post records, with
five handlers: `get_posts`, `add_post`, `delete_post`, `update_post`,
`search_post`.  Each handler is embedded as a pure function that takes the
registry (the `POSTS` list) as an explicit argument and returns the new
registry together with the HTTP response (a JSON-ish body and a status code).
-/

/-- A blog post record: `{"id": ..., "title": ..., "content": ...}`. -/
structure Post where
  id : Nat
  title : String
  content : String
deriving DecidableEq, Repr

/-- The seed registry the module starts with. -/
def POSTS : List Post :=
  [⟨1, "First post", "This is the first post."⟩,
   ⟨2, "Second post", "This is the second post."⟩]

/-- Python truthiness of an optional string field obtained from
`request.get_json().get(...)` or `request.args.get(...)`: `None` and the
empty string are falsy, every other string is truthy. -/
def truthy : Option String → Bool
  | none => false
  | some s => !s.isEmpty

/-- The JSON body of a response: a list of posts, a single post, or an
object with a single `error` / `message` / `success` key. -/
inductive Body where
  | posts : List Post → Body
  | post : Post → Body
  | err : String → Body
  | message : String → Body
  | success : String → Body
deriving DecidableEq, Repr

/-- An HTTP response: JSON body plus status code. -/
structure Resp where
  body : Body
  status : Nat
deriving DecidableEq, Repr

/-- Python's `str.lower()`: lower-case each character.  (Equal to core's
`String.toLower`, but stated on the character list so that the kernel can
evaluate it.) -/
def pyLower (s : String) : String := ⟨s.data.map Char.toLower⟩

/-- `get_title(post)`: the sort key used by `get_posts` for `sort=title`. -/
def get_title (post : Post) : String := pyLower post.title

/-- `get_content(post)`: the sort key used by `get_posts` for `sort=content`. -/
def get_content (post : Post) : String := pyLower post.content

/-- `sorted(posts, key=key, reverse=reverse)`: Python's stable sort.  With
`reverse=True`, elements whose keys compare equal also keep their original
order, which is exactly a stable sort by the flipped comparison. -/
def pySorted (key : Post → String) (reverse : Bool) (posts : List Post) : List Post :=
  if reverse then posts.mergeSort (fun a b => decide (key b ≤ key a))
  else posts.mergeSort (fun a b => decide (key a ≤ key b))

/-- `GET /api/posts` (`get_posts`): optional `sort` and `direction` query
values; `direction` defaults to `'asc'`; sorts a copy, never the registry. -/
def get_posts (sort_tag direction : Option String) (posts0 : List Post) :
    List Post × Resp :=
  let direction_tag := direction.getD "asc"
  let posts := posts0
  let posts :=
    if sort_tag = some "title" then
      pySorted get_title (pyLower direction_tag == "desc") posts
    else if sort_tag = some "content" then
      pySorted get_content (pyLower direction_tag == "desc") posts
    else posts
  (posts0, ⟨.posts posts, 200⟩)

/-- `POST /api/posts` (`add_post`): validates that `title` and `content` are
truthy, assigns `id = len(POSTS) + 1` and appends the new post. -/
def add_post (title content : Option String) (posts0 : List Post) :
    List Post × Resp :=
  if !truthy title || !truthy content then
    (posts0, ⟨.err "Please fill out required fields", 400⟩)
  else
    let new_post : Post := ⟨posts0.length + 1, title.getD "", content.getD ""⟩
    (posts0 ++ [new_post], ⟨.post new_post, 201⟩)

/-- `DELETE /api/posts/<int:post_id>` (`delete_post`): scans for the first
post with matching id and calls `POSTS.remove(post)` on it (removal of the
first list element equal to that record). -/
def delete_post (post_id : Nat) (posts0 : List Post) : List Post × Resp :=
  match posts0.find? (fun post => post.id == post_id) with
  | some post =>
      (posts0.erase post,
       ⟨.success ("Post with id (" ++ toString post_id ++
          ") has been deleted successfully."), 200⟩)
  | none =>
      (posts0, ⟨.err ("Post with id (" ++ toString post_id ++
          ") do not exist."), 404⟩)

/-- `PUT /api/posts/<int:post_id>` (`update_post`): scans for the first post
with matching id; rejects an all-falsy body with 400, otherwise overwrites
the truthy fields in place and reports which fields changed. -/
def update_post (post_id : Nat) (new_title new_content : Option String) :
    List Post → List Post × Resp
  | [] =>
      ([], ⟨.err ("Post with id (" ++ toString post_id ++
          ") do not exist."), 404⟩)
  | post :: rest =>
    if post.id == post_id then
      if !truthy new_title && !truthy new_content then
        (post :: rest, ⟨.err "Bad request: Nothing was changed", 400⟩)
      else if truthy new_title then
        let post' : Post := { post with title := new_title.getD "" }
        if truthy new_content then
          ({ post' with content := new_content.getD "" } :: rest,
           ⟨.message ("title and content of post (" ++ toString post_id ++
              ") was updated."), 200⟩)
        else
          (post' :: rest,
           ⟨.message ("title of post (" ++ toString post_id ++
              ") was updated."), 200⟩)
      else
        ({ post with content := new_content.getD "" } :: rest,
         ⟨.message ("content of post (" ++ toString post_id ++
            ") was updated."), 200⟩)
    else
      (post :: (update_post post_id new_title new_content rest).1,
       (update_post post_id new_title new_content rest).2)

/-- The title criterion of `search_post`:
`title and title.lower() in post['title'].lower()`. -/
def titleMatches (title : Option String) (post : Post) : Bool :=
  truthy title &&
    decide ((pyLower (title.getD "")).data <:+: (pyLower post.title).data)

/-- The content criterion of `search_post`:
`content and content.lower() in post['content'].lower()`. -/
def contentMatches (content : Option String) (post : Post) : Bool :=
  truthy content &&
    decide ((pyLower (content.getD "")).data <:+: (pyLower post.content).data)

/-- The accumulation loop of `search_post`: appends a title match, then
appends a content match unless an equal record is already in the list. -/
def searchLoop (title content : Option String) :
    List Post → List Post → List Post
  | search_lst, [] => search_lst
  | search_lst, post :: rest =>
    let search_lst :=
      if titleMatches title post then search_lst ++ [post] else search_lst
    let search_lst :=
      if contentMatches content post && !(decide (post ∈ search_lst)) then
        search_lst ++ [post]
      else search_lst
    searchLoop title content search_lst rest

/-- `GET /api/posts/search` (`search_post`): requires at least one of the
`title` / `content` query values to be truthy, then collects matches. -/
def search_post (title content : Option String) (posts0 : List Post) :
    List Post × Resp :=
  if !truthy title && !truthy content then
    (posts0, ⟨.err "Please provide title or content query", 400⟩)
  else
    (posts0, ⟨.posts (searchLoop title content [] posts0), 200⟩)

/-- A post passes the search if its title matches the title query or its
content matches the content query. -/
def postMatches (title content : Option String) (post : Post) : Bool :=
  titleMatches title post || contentMatches content post

/-! ## Theorems -/

/-- C1: for every registry state, creating a post with truthy title and
content assigns the new post `id = length + 1`, appends it at the end,
returns the created post with status 201, and the length grows by one. -/
theorem add_post_valid (title content : Option String) (posts0 : List Post)
    (ht : truthy title = true) (hc : truthy content = true) :
    ∃ p : Post,
      add_post title content posts0 = (posts0 ++ [p], ⟨.post p, 201⟩) ∧
      p.id = posts0.length + 1 ∧
      (add_post title content posts0).1.length = posts0.length + 1 := by
  refine ⟨⟨posts0.length + 1, title.getD "", content.getD ""⟩, ?_, rfl, ?_⟩ <;>
    simp [add_post, ht, hc]

/-- Witness for C1: creating a valid post on the seed registry. -/
theorem add_post_valid_witness :
    ∃ p : Post,
      add_post (some "T") (some "C") POSTS = (POSTS ++ [p], ⟨.post p, 201⟩) ∧
      p.id = POSTS.length + 1 ∧
      (add_post (some "T") (some "C") POSTS).1.length = POSTS.length + 1 :=
  add_post_valid (some "T") (some "C") POSTS (by decide) (by decide)

/-- C7: `add_post` answers the `MissingField` error with status 400 exactly
when `title` or `content` is falsy, and then leaves the registry unchanged. -/
theorem add_post_missing_field (title content : Option String)
    (posts0 : List Post) :
    (((add_post title content posts0).2 =
        ⟨.err "Please fill out required fields", 400⟩) ↔
      (truthy title = false ∨ truthy content = false)) ∧
    ((truthy title = false ∨ truthy content = false) →
      (add_post title content posts0).1 = posts0) := by
  cases htt : truthy title <;> cases hcc : truthy content <;>
    simp [add_post, htt, hcc]

/-- Witness for C7: a missing title on the empty registry is rejected and
the registry stays empty. -/
theorem add_post_missing_field_witness :
    (add_post none (some "C") []).1 = ([] : List Post) :=
  (add_post_missing_field none (some "C") []).2 (Or.inl rfl)

/-- C9: `get_posts` and `search_post` never change the registry, whatever
the query parameters are. -/
theorem read_handlers_frame (sort_tag direction title content : Option String)
    (posts0 : List Post) :
    (get_posts sort_tag direction posts0).1 = posts0 ∧
    (search_post title content posts0).1 = posts0 := by
  refine ⟨rfl, ?_⟩
  unfold search_post
  split <;> rfl

/-- C8: from the seed state, deleting post 1 and then creating a valid post
produces a new post with id 2, colliding with the surviving post of id 2:
id uniqueness is not preserved by all operation sequences. -/
theorem id_collision_after_delete_then_create :
    (add_post (some "New post") (some "New content")
        (delete_post 1 POSTS).1).2 =
      ⟨.post ⟨2, "New post", "New content"⟩, 201⟩ ∧
    (add_post (some "New post") (some "New content")
        (delete_post 1 POSTS).1).1.map Post.id = [2, 2] ∧
    ¬ ((add_post (some "New post") (some "New content")
        (delete_post 1 POSTS).1).1.map Post.id).Nodup := by
  refine ⟨rfl, rfl, by decide⟩

/-- In a list whose first id match is `p` at the boundary of `l1`, `find?`
locates `p` and `erase` (removal of the first equal element, as Python's
`list.remove`) drops exactly that occurrence. -/
theorem find_and_erase_first_match (post_id : Nat) (l1 : List Post) (p : Post)
    (l2 : List Post) (hl1 : ∀ q ∈ l1, q.id ≠ post_id) (hp : p.id = post_id) :
    (l1 ++ p :: l2).find? (fun q => q.id == post_id) = some p ∧
    (l1 ++ p :: l2).erase p = l1 ++ l2 := by
  induction l1 with
  | nil =>
    simp [List.find?_cons, hp, List.erase_cons_head]
  | cons a l ih =>
    have ha : a.id ≠ post_id := hl1 a (by simp)
    have hane : a ≠ p := fun h => ha (h ▸ hp)
    obtain ⟨ihf, ihe⟩ := ih (fun q hq => hl1 q (by simp [hq]))
    refine ⟨?_, ?_⟩
    · simpa [List.find?_cons, ha] using ihf
    · simpa [List.erase_cons, hane] using ihe

/-- C4: deleting a nonexistent id returns 404 with a message including the
id and leaves the registry unchanged; deleting an existing id removes
exactly the first post with that id, leaves all others unchanged in order,
and returns 200 with a message including the id. -/
theorem delete_post_spec (post_id : Nat) (posts0 : List Post) :
    ((∀ p ∈ posts0, p.id ≠ post_id) →
      delete_post post_id posts0 =
        (posts0, ⟨.err ("Post with id (" ++ toString post_id ++
            ") do not exist."), 404⟩) ∧
      (toString post_id).data <:+:
        ("Post with id (" ++ toString post_id ++ ") do not exist.").data) ∧
    (∀ l1 p l2, posts0 = l1 ++ p :: l2 → (∀ q ∈ l1, q.id ≠ post_id) →
      p.id = post_id →
      delete_post post_id posts0 =
        (l1 ++ l2, ⟨.success ("Post with id (" ++ toString post_id ++
            ") has been deleted successfully."), 200⟩) ∧
      (toString post_id).data <:+:
        ("Post with id (" ++ toString post_id ++
          ") has been deleted successfully.").data) := by
  constructor
  · intro hnone
    have hf : posts0.find? (fun q => q.id == post_id) = none := by
      rw [List.find?_eq_none]
      intro q hq
      simpa using hnone q hq
    constructor
    · simp [delete_post, hf]
    · exact ⟨"Post with id (".data, ") do not exist.".data, by simp⟩
  · intro l1 p l2 hdec hl1 hp
    obtain ⟨hf, he⟩ := find_and_erase_first_match post_id l1 p l2 hl1 hp
    constructor
    · rw [hdec]
      simp [delete_post, hf, he]
    · exact ⟨"Post with id (".data,
        ") has been deleted successfully.".data, by simp⟩

/-- Witness for C4: deleting id 1 from the seed registry removes the first
post and keeps the second. -/
theorem delete_post_spec_witness :
    delete_post 1 POSTS =
      ([⟨2, "Second post", "This is the second post."⟩],
       ⟨.success ("Post with id (" ++ toString 1 ++
          ") has been deleted successfully."), 200⟩) :=
  ((delete_post_spec 1 POSTS).2 [] ⟨1, "First post", "This is the first post."⟩
    [⟨2, "Second post", "This is the second post."⟩] rfl (by simp) rfl).1

/-- Characterization of `update_post` on a registry whose first id match is
`p`: the all-falsy body is rejected without mutation, otherwise exactly the
truthy fields of `p` are overwritten and the message names them. -/
theorem update_post_first_match (post_id : Nat) (t c : Option String)
    (l1 : List Post) (p : Post) (l2 : List Post)
    (hl1 : ∀ q ∈ l1, q.id ≠ post_id) (hp : p.id = post_id) :
    update_post post_id t c (l1 ++ p :: l2) =
      if truthy t then
        if truthy c then
          (l1 ++ ⟨p.id, t.getD "", c.getD ""⟩ :: l2,
           ⟨.message ("title and content of post (" ++ toString post_id ++
              ") was updated."), 200⟩)
        else
          (l1 ++ ⟨p.id, t.getD "", p.content⟩ :: l2,
           ⟨.message ("title of post (" ++ toString post_id ++
              ") was updated."), 200⟩)
      else if truthy c then
        (l1 ++ ⟨p.id, p.title, c.getD ""⟩ :: l2,
         ⟨.message ("content of post (" ++ toString post_id ++
            ") was updated."), 200⟩)
      else
        (l1 ++ p :: l2, ⟨.err "Bad request: Nothing was changed", 400⟩) := by
  induction l1 with
  | nil =>
    cases htt : truthy t <;> cases hcc : truthy c <;>
      simp [update_post, hp, htt, hcc]
  | cons a l ih =>
    have ha : (a.id == post_id) = false := by
      simpa using hl1 a (by simp)
    have ih' := ih (fun q hq => hl1 q (List.mem_cons_of_mem a hq))
    cases htt : truthy t <;> cases hcc : truthy c <;>
      simp only [htt, hcc, if_true, if_false, Bool.false_eq_true] at ih' <;>
      simp [update_post, ha, ih', htt, hcc]

/-- C5: on a registry whose first post with the requested id is `p`, an
update with at least one truthy field overwrites exactly the truthy fields
of `p` and answers 200 with a message naming exactly the changed fields. -/
theorem update_post_success (post_id : Nat) (t c : Option String)
    (l1 : List Post) (p : Post) (l2 : List Post)
    (hl1 : ∀ q ∈ l1, q.id ≠ post_id) (hp : p.id = post_id)
    (_hsome : truthy t = true ∨ truthy c = true) :
    (truthy t = true → truthy c = true →
      update_post post_id t c (l1 ++ p :: l2) =
        (l1 ++ ⟨p.id, t.getD "", c.getD ""⟩ :: l2,
         ⟨.message ("title and content of post (" ++ toString post_id ++
            ") was updated."), 200⟩)) ∧
    (truthy t = true → truthy c = false →
      update_post post_id t c (l1 ++ p :: l2) =
        (l1 ++ ⟨p.id, t.getD "", p.content⟩ :: l2,
         ⟨.message ("title of post (" ++ toString post_id ++
            ") was updated."), 200⟩)) ∧
    (truthy t = false → truthy c = true →
      update_post post_id t c (l1 ++ p :: l2) =
        (l1 ++ ⟨p.id, p.title, c.getD ""⟩ :: l2,
         ⟨.message ("content of post (" ++ toString post_id ++
            ") was updated."), 200⟩)) := by
  have h := update_post_first_match post_id t c l1 p l2 hl1 hp
  refine ⟨?_, ?_, ?_⟩ <;> intro htt hcc <;> simp [htt, hcc] at h <;> exact h

/-- Witness for C5: updating only the content of post 2 in the seed
registry rewrites its content, keeps its title, and reports "content". -/
theorem update_post_success_witness :
    update_post 2 none (some "Fresh") POSTS =
      ([⟨1, "First post", "This is the first post."⟩,
        ⟨2, "Second post", "Fresh"⟩],
       ⟨.message ("content of post (" ++ toString 2 ++ ") was updated."),
        200⟩) :=
  (update_post_success 2 none (some "Fresh")
      [⟨1, "First post", "This is the first post."⟩]
      ⟨2, "Second post", "This is the second post."⟩ [] (by decide) rfl
      (Or.inr rfl)).2.2 rfl rfl

/-- C6: `update_post` yields the `NoChange` error exactly when a matching
post exists and both fields are falsy (leaving the registry unchanged),
yields `NotFound` exactly when no post matches (regardless of the body),
and never mutates the registry on a non-200 outcome. -/
theorem update_post_errors (post_id : Nat) (t c : Option String)
    (posts0 : List Post) :
    (((update_post post_id t c posts0).2 =
        ⟨.err "Bad request: Nothing was changed", 400⟩) ↔
      ((∃ p ∈ posts0, p.id = post_id) ∧ truthy t = false ∧
        truthy c = false)) ∧
    (((update_post post_id t c posts0).2 =
        ⟨.err ("Post with id (" ++ toString post_id ++
          ") do not exist."), 404⟩) ↔
      (∀ p ∈ posts0, p.id ≠ post_id)) ∧
    ((update_post post_id t c posts0).2.status ≠ 200 →
      (update_post post_id t c posts0).1 = posts0) := by
  induction posts0 with
  | nil => simp [update_post]
  | cons a rest ih =>
    obtain ⟨ih1, ih2, ih3⟩ := ih
    by_cases ha : a.id = post_id
    · cases htt : truthy t <;> cases hcc : truthy c <;>
        simp [update_post, ha, htt, hcc]
    · have ha' : (a.id == post_id) = false := by simpa using ha
      refine ⟨?_, ?_, ?_⟩
      · rw [show (update_post post_id t c (a :: rest)).2 =
            (update_post post_id t c rest).2 by simp [update_post, ha']]
        rw [ih1]
        simp [ha]
      · rw [show (update_post post_id t c (a :: rest)).2 =
            (update_post post_id t c rest).2 by simp [update_post, ha']]
        rw [ih2]
        simp [ha]
      · intro hst
        have hst' : (update_post post_id t c rest).2.status ≠ 200 := by
          simpa [update_post, ha'] using hst
        simp [update_post, ha', ih3 hst']

/-- Witness for C6: an all-falsy update of the existing post 1 answers the
`NoChange` error and leaves the seed registry unchanged. -/
theorem update_post_errors_witness :
    (update_post 1 none (some "") POSTS).1 = POSTS :=
  (update_post_errors 1 none (some "") POSTS).2.2 (by decide)

/-- C10: `update_post` preserves the registry length, the sequence of ids,
and every entry at a position other than the first id match. -/
theorem update_post_frame (post_id : Nat) (t c : Option String)
    (posts0 : List Post) :
    (update_post post_id t c posts0).1.length = posts0.length ∧
    (update_post post_id t c posts0).1.map Post.id = posts0.map Post.id ∧
    ∀ j, j ≠ posts0.findIdx (fun p => p.id == post_id) →
      (update_post post_id t c posts0).1[j]? = posts0[j]? := by
  induction posts0 with
  | nil => simp [update_post]
  | cons a rest ih =>
    obtain ⟨ih1, ih2, ih3⟩ := ih
    by_cases ha : a.id = post_id
    · have hfi : (a :: rest).findIdx (fun p => p.id == post_id) = 0 := by
        simp [List.findIdx_cons, ha]
      cases htt : truthy t <;> cases hcc : truthy c <;>
        · refine ⟨by simp [update_post, ha, htt, hcc],
            by simp [update_post, ha, htt, hcc], ?_⟩
          intro j hj
          rw [hfi] at hj
          obtain ⟨k, rfl⟩ := Nat.exists_eq_succ_of_ne_zero hj
          simp [update_post, ha, htt, hcc]
    · have ha' : (a.id == post_id) = false := by simpa using ha
      have hfi : (a :: rest).findIdx (fun p => p.id == post_id) =
          rest.findIdx (fun p => p.id == post_id) + 1 := by
        simp [List.findIdx_cons, ha']
      refine ⟨by simp [update_post, ha', ih1],
        by simp [update_post, ha', ih2], ?_⟩
      intro j hj
      rw [hfi] at hj
      match j with
      | 0 => simp [update_post, ha']
      | k + 1 =>
        have hk : k ≠ rest.findIdx (fun p => p.id == post_id) := by
          omega
        simpa [update_post, ha'] using ih3 k hk

/-- Witness for C10: updating post 1 of the seed registry leaves the entry
at position 1 untouched. -/
theorem update_post_frame_witness :
    (update_post 1 (some "X") none POSTS).1[1]? = POSTS[1]? :=
  (update_post_frame 1 (some "X") none POSTS).2.2 1 (by decide)

/-- Stability of the stable sort with respect to a key: posts sharing any
fixed key value keep their original relative order (their filtered
subsequence is unchanged). -/
theorem mergeSort_filter_key (l : List Post) (le : Post → Post → Bool)
    (htrans : ∀ (a b c : Post), le a b → le b c → le a c)
    (htotal : ∀ (a b : Post), le a b || le b a)
    (key : Post → String) (k : String)
    (hkey : ∀ a b : Post, key a = k → key b = k → le a b = true) :
    (l.mergeSort le).filter (fun p => key p == k) =
      l.filter (fun p => key p == k) := by
  have hsub : List.Sublist (l.filter (fun p => key p == k)) l :=
    List.filter_sublist l
  have hpw : (l.filter (fun p => key p == k)).Pairwise
      (fun a b => le a b = true) := by
    refine List.pairwise_of_forall_mem_list ?_
    intro a ha b hb
    rw [List.mem_filter] at ha hb
    exact hkey a b (by simpa using ha.2) (by simpa using hb.2)
  have h2 : List.Sublist (l.filter (fun p => key p == k)) (l.mergeSort le) :=
    List.sublist_mergeSort htrans htotal hpw hsub
  have hself : (l.filter (fun p => key p == k)).filter
      (fun p => key p == k) = l.filter (fun p => key p == k) :=
    List.filter_eq_self.mpr (fun a ha => (List.mem_filter.mp ha).2)
  have h3 : List.Sublist (l.filter (fun p => key p == k))
      ((l.mergeSort le).filter (fun p => key p == k)) := by
    have h4 := h2.filter (fun p => key p == k)
    rwa [hself] at h4
  have hlen : ((l.mergeSort le).filter (fun p => key p == k)).length =
      (l.filter (fun p => key p == k)).length :=
    ((List.mergeSort_perm l le).filter (fun p => key p == k)).length_eq
  exact (h3.eq_of_length hlen.symm).symm

/-- `pySorted` permutes its input. -/
theorem pySorted_perm (key : Post → String) (r : Bool) (l : List Post) :
    (pySorted key r l).Perm l := by
  cases r <;> simpa [pySorted] using List.mergeSort_perm l _

/-- `pySorted` with `reverse=False` sorts ascending by the key. -/
theorem pySorted_sorted_asc (key : Post → String) (l : List Post) :
    (pySorted key false l).Pairwise (fun a b => key a ≤ key b) := by
  have h := @List.sorted_mergeSort _ (fun a b => decide (key a ≤ key b))
    (fun a b c hab hbc => by
      simp only [decide_eq_true_eq] at hab hbc ⊢
      exact le_trans hab hbc)
    (fun a b => by
      simp only [Bool.or_eq_true, decide_eq_true_eq]
      exact le_total (key a) (key b)) l
  simpa [pySorted] using h.imp (fun h => by simpa using h)

/-- `pySorted` with `reverse=True` sorts descending by the key, again
stably. -/
theorem pySorted_sorted_desc (key : Post → String) (l : List Post) :
    (pySorted key true l).Pairwise (fun a b => key b ≤ key a) := by
  have h := @List.sorted_mergeSort _ (fun a b => decide (key b ≤ key a))
    (fun a b c hab hbc => by
      simp only [decide_eq_true_eq] at hab hbc ⊢
      exact le_trans hbc hab)
    (fun a b => by
      simp only [Bool.or_eq_true, decide_eq_true_eq]
      exact le_total (key b) (key a)) l
  simpa [pySorted] using h.imp (fun h => by simpa using h)

/-- `pySorted` never reorders posts sharing a key value. -/
theorem pySorted_filter (key : Post → String) (r : Bool) (l : List Post)
    (k : String) :
    (pySorted key r l).filter (fun p => key p == k) =
      l.filter (fun p => key p == k) := by
  cases r
  · simpa [pySorted] using mergeSort_filter_key l
      (fun a b => decide (key a ≤ key b))
      (fun a b c hab hbc => by
        simp only [decide_eq_true_eq] at hab hbc ⊢
        exact le_trans hab hbc)
      (fun a b => by
        simp only [Bool.or_eq_true, decide_eq_true_eq]
        exact le_total (key a) (key b))
      key k (fun a b hak hbk => by simp [hak, hbk])
  · simpa [pySorted] using mergeSort_filter_key l
      (fun a b => decide (key b ≤ key a))
      (fun a b c hab hbc => by
        simp only [decide_eq_true_eq] at hab hbc ⊢
        exact le_trans hbc hab)
      (fun a b => by
        simp only [Bool.or_eq_true, decide_eq_true_eq]
        exact le_total (key b) (key a))
      key k (fun a b hak hbk => by simp [hak, hbk])

/-- C2: `get_posts` always answers 200; with `sort=title` it returns a
stable case-insensitive sort of the registry by title — ascending unless
`direction` is `desc` up to case, descending then; likewise for
`sort=content` keyed on content; any other `sort` returns insertion
order. -/
theorem get_posts_spec (sort_tag direction : Option String)
    (posts0 : List Post) :
    (get_posts sort_tag direction posts0).2.status = 200 ∧
    ∃ l, (get_posts sort_tag direction posts0).2.body = .posts l ∧
      (sort_tag = some "title" →
        l.Perm posts0 ∧
        (pyLower (direction.getD "asc") = "desc" →
          l.Pairwise (fun a b => get_title b ≤ get_title a)) ∧
        (pyLower (direction.getD "asc") ≠ "desc" →
          l.Pairwise (fun a b => get_title a ≤ get_title b)) ∧
        (∀ k, l.filter (fun p => get_title p == k) =
          posts0.filter (fun p => get_title p == k))) ∧
      (sort_tag = some "content" →
        l.Perm posts0 ∧
        (pyLower (direction.getD "asc") = "desc" →
          l.Pairwise (fun a b => get_content b ≤ get_content a)) ∧
        (pyLower (direction.getD "asc") ≠ "desc" →
          l.Pairwise (fun a b => get_content a ≤ get_content b)) ∧
        (∀ k, l.filter (fun p => get_content p == k) =
          posts0.filter (fun p => get_content p == k))) ∧
      (sort_tag ≠ some "title" → sort_tag ≠ some "content" →
        l = posts0) := by
  refine ⟨rfl, ⟨_, rfl, ?_, ?_, ?_⟩⟩
  · rintro rfl
    simp only [reduceIte]
    by_cases hd : pyLower (direction.getD "asc") = "desc"
    · have hb : (pyLower (direction.getD "asc") == "desc") = true := by
        simpa using hd
      rw [hb]
      exact ⟨pySorted_perm _ _ _,
        fun _ => pySorted_sorted_desc _ _,
        fun hcon => absurd hd hcon,
        fun k => pySorted_filter _ _ _ k⟩
    · have hb : (pyLower (direction.getD "asc") == "desc") = false := by
        simpa using hd
      rw [hb]
      exact ⟨pySorted_perm _ _ _,
        fun hcon => absurd hcon hd,
        fun _ => pySorted_sorted_asc _ _,
        fun k => pySorted_filter _ _ _ k⟩
  · rintro rfl
    rw [if_neg (by decide), if_pos rfl]
    by_cases hd : pyLower (direction.getD "asc") = "desc"
    · have hb : (pyLower (direction.getD "asc") == "desc") = true := by
        simpa using hd
      rw [hb]
      exact ⟨pySorted_perm _ _ _,
        fun _ => pySorted_sorted_desc _ _,
        fun hcon => absurd hd hcon,
        fun k => pySorted_filter _ _ _ k⟩
    · have hb : (pyLower (direction.getD "asc") == "desc") = false := by
        simpa using hd
      rw [hb]
      exact ⟨pySorted_perm _ _ _,
        fun hcon => absurd hcon hd,
        fun _ => pySorted_sorted_asc _ _,
        fun k => pySorted_filter _ _ _ k⟩
  · intro h1 h2
    simp [h1, h2]

/-- Witness for C2: listing the seed registry with `sort=title` and
`direction=desc` yields a descending-by-title permutation of the seed. -/
theorem get_posts_spec_witness :
    ∃ l, (get_posts (some "title") (some "desc") POSTS).2.body = .posts l ∧
      l.Perm POSTS ∧ l.Pairwise (fun a b => get_title b ≤ get_title a) := by
  obtain ⟨-, l, hbody, htitle, -, -⟩ :=
    get_posts_spec (some "title") (some "desc") POSTS
  obtain ⟨hperm, hdesc, -, -⟩ := htitle rfl
  exact ⟨l, hbody, hperm, hdesc (by decide)⟩

/-- The search accumulation loop, on a duplicate-free remainder disjoint
from the accumulator, appends exactly the matching posts in order. -/
theorem searchLoop_append (title content : Option String)
    (todo : List Post) :
    ∀ acc : List Post, (∀ p ∈ todo, p ∉ acc) → todo.Nodup →
      searchLoop title content acc todo =
        acc ++ todo.filter (postMatches title content) := by
  induction todo with
  | nil => intro acc _ _; simp [searchLoop]
  | cons post rest ih =>
    intro acc hdisj hnd
    obtain ⟨hpr, hnd'⟩ := List.nodup_cons.mp hnd
    have hpost : post ∉ acc := hdisj post (List.mem_cons_self post rest)
    have hdisj1 : ∀ p ∈ rest, p ∉ acc ++ [post] := by
      intro p hp
      simp only [List.mem_append, List.mem_singleton]
      rintro (h | rfl)
      · exact hdisj p (List.mem_cons_of_mem post hp) h
      · exact hpr hp
    have hdisj0 : ∀ p ∈ rest, p ∉ acc :=
      fun p hp => hdisj p (List.mem_cons_of_mem post hp)
    by_cases ht : titleMatches title post = true
    · have hmem : (decide (post ∈ acc ++ [post])) = true := by simp
      have e1 : searchLoop title content acc (post :: rest) =
          searchLoop title content (acc ++ [post]) rest := by
        rw [searchLoop]
        simp [ht, hmem]
      rw [e1, ih (acc ++ [post]) hdisj1 hnd']
      simp [List.filter_cons, postMatches, ht]
    · by_cases hc : contentMatches content post = true
      · have hmem : (decide (post ∈ acc)) = false := by simpa using hpost
        have e1 : searchLoop title content acc (post :: rest) =
            searchLoop title content (acc ++ [post]) rest := by
          rw [searchLoop]
          simp [ht, hc, hmem]
        rw [e1, ih (acc ++ [post]) hdisj1 hnd']
        simp [List.filter_cons, postMatches, ht, hc]
      · have e1 : searchLoop title content acc (post :: rest) =
            searchLoop title content acc rest := by
          rw [searchLoop]
          simp [ht, hc]
        rw [e1, ih acc hdisj0 hnd']
        simp [List.filter_cons, postMatches, ht, hc]

/-- C3 counterexample: on a registry holding two identical records, a
content query matching both returns the record only once, so the result is
not "exactly those posts whose content matches, in registry order". -/
theorem search_post_duplicate_counterexample :
    (search_post none (some "b")
        [⟨1, "a", "b"⟩, ⟨1, "a", "b"⟩]).2 = ⟨.posts [⟨1, "a", "b"⟩], 200⟩ ∧
    List.filter (postMatches none (some "b"))
        [⟨1, "a", "b"⟩, ⟨1, "a", "b"⟩] =
      [⟨1, "a", "b"⟩, ⟨1, "a", "b"⟩] ∧
    (search_post none (some "b") [⟨1, "a", "b"⟩, ⟨1, "a", "b"⟩]).2.body ≠
      .posts (List.filter (postMatches none (some "b"))
        [⟨1, "a", "b"⟩, ⟨1, "a", "b"⟩]) := by
  refine ⟨by decide, by decide, by decide⟩

/-- C3 (amended with a duplicate-free registry): `search_post` fails with
400 exactly when both query values are falsy (registry unchanged), and
otherwise answers 200 with exactly the posts whose title contains the title
query or whose content contains the content query, case-insensitively, in
registry order, each exactly once. -/
theorem search_post_spec (title content : Option String)
    (posts0 : List Post) (hnd : posts0.Nodup) :
    ((truthy title = false ∧ truthy content = false) →
      search_post title content posts0 =
        (posts0, ⟨.err "Please provide title or content query", 400⟩)) ∧
    ((truthy title || truthy content) = true →
      search_post title content posts0 =
        (posts0, ⟨.posts (posts0.filter (postMatches title content)),
          200⟩)) ∧
    (((search_post title content posts0).2.status = 400) ↔
      (truthy title = false ∧ truthy content = false)) := by
  have hloop := searchLoop_append title content posts0 []
    (fun p _ h => List.not_mem_nil p h) hnd
  refine ⟨?_, ?_, ?_⟩
  · rintro ⟨h1, h2⟩
    simp [search_post, h1, h2]
  · intro h
    rcases Bool.or_eq_true_iff.mp h with h1 | h1
    · simp [search_post, h1, hloop]
    · simp [search_post, h1, hloop]
  · cases h1 : truthy title <;> cases h2 : truthy content <;>
      simp [search_post, h1, h2]

/-- Witness for C3: searching the seed registry for `title=first` matches
exactly the first post, case-insensitively. -/
theorem search_post_spec_witness :
    search_post (some "first") none POSTS =
      (POSTS,
       ⟨.posts [⟨1, "First post", "This is the first post."⟩], 200⟩) := by
  have h := (search_post_spec (some "first") none POSTS (by decide)).2.1
    (by decide)
  rw [h]
  decide
